import Mathlib

set_option maxRecDepth 8000

/-!
Shallow embedding of the VS1053 decoder-chip driver (`src/vs1053.rs`) of the
rustdio repository, together with proofs checking the natural-language
specification against it.  Rust machine integers are modelled as `Nat`/`Int`
with explicit truncation (`% 2 ^ w`, two's-complement casts via `Int.emod`);
Rust `i64` division truncates toward zero and is modelled with `Int.tdiv`;
fallible calls return `Except DSPError`.  Hardware responses (SPI outcomes,
DREQ levels, register readbacks) are passed in as explicit parameters or
traces, and pin traffic is recorded as event lists.
-/

/-- The driver's error type (`enum DSPError`, lines 740–747). -/
inductive DSPError
  | Spi
  | UnableToSetCSPin
  | UnableToSetDCSPin
  | UnableToGetDREQPin
  | DataRequestTimeout
deriving DecidableEq, Repr

/-- `fn map(x, in_min, in_max, out_min, out_max) -> i64` (lines 66–68):
`(x - in_min) * (out_max - out_min) / (in_max - in_min) + out_min`, where
Rust `i64` division truncates toward zero (`Int.tdiv`).  The operand sizes
in this driver are far below `i64` overflow, so plain `Int` is exact. -/
def map (x in_min in_max out_min out_max : Int) : Int :=
  Int.tdiv ((x - in_min) * (out_max - out_min)) (in_max - in_min) + out_min

/-- Rust `x as u8` applied to an `i64` value: two's-complement truncation to
the low 8 bits (`%` on `Int` is the Euclidean `Int.emod`, whose result is
the unsigned low-byte value). -/
def i64_as_u8 (x : Int) : Nat := (x % 256).toNat

/-- Rust `u8::saturating_add`, saturating at `u8::MAX = 255`. -/
def saturating_add_u8 (a b : Nat) : Nat := min (a + b) 255

/-- Rust `u8::saturating_sub`; `Nat` subtraction already saturates at zero. -/
def saturating_sub_u8 (a b : Nat) : Nat := a - b

/-- Rust `i8::unsigned_abs`, giving a `u8`. -/
def unsigned_abs (b : Int) : Nat := b.natAbs

/-- Rust `b as u8` for an `i8` value `b`: two's-complement truncation. -/
def i8_as_u8 (b : Int) : Nat := (b % 256).toNat

/-- The per-channel register byte computed by `set_volume` (lines 425–426):
`map(value.into(), 0, 100, 0xFE, 0x00) as u8`. -/
def channel_byte (value : Nat) : Nat := i64_as_u8 (map value 0 100 0xFE 0x00)

/-- The channel inputs `(value_l, value_r)` after the balance `match` in
`set_volume` (lines 419–423): for `balance < 0` the right value becomes
`max(0, vol.saturating_add(balance.unsigned_abs()))`, for `balance > 0` the
left value becomes `max(0, vol.saturating_sub(balance as u8))`. -/
def balance_adjust (vol : Nat) (balance : Int) : Nat × Nat :=
  if balance < 0 then (vol, max 0 (saturating_add_u8 vol (unsigned_abs balance)))
  else if balance > 0 then (max 0 (saturating_sub_u8 vol (i8_as_u8 balance)), vol)
  else (vol, vol)

/-- The 16-bit value `((value_l as u16) << 8) | value_r as u16` that
`set_volume vol` sends to the `SCI_VOL` register (line 428), as a function of
`vol` and the stored balance. -/
def set_volume_packed (vol : Nat) (balance : Int) : Nat :=
  let p := balance_adjust vol balance
  let value_l := channel_byte p.1
  let value_r := channel_byte p.2
  (value_l <<< 8) ||| value_r

/-- The driver-held numeric state: `current_volume: u8`, `current_balance: i8`
(lines 76–77). -/
structure VolumeState where
  current_volume : Nat
  current_balance : Int
deriving DecidableEq, Repr

/-- `set_volume` (lines 412–430): stores the volume first
(`self.current_volume = vol`, line 417), then computes the packed value from
the stored balance and attempts the `SCI_VOL` register write, whose hardware
outcome `hw` (success, or a pin/SPI/timeout error) it returns unchanged.
Result: the updated state, the 16-bit value sent to the register, and the
call's result. -/
def set_volume (s : VolumeState) (vol : Nat) (hw : Except DSPError Unit) :
    VolumeState × Nat × Except DSPError Unit :=
  let s' := { s with current_volume := vol }
  (s', set_volume_packed vol s.current_balance, hw)

/-- `get_volume` (lines 458–461): returns the stored `current_volume`. -/
def get_volume (s : VolumeState) : Nat := s.current_volume

/-- Round-to-nearest of `n / d` on naturals (halves round up). -/
def round_div (n d : Nat) : Nat := (2 * n + d) / (2 * d)

/-- Ceiling of `n / d` on naturals. -/
def ceil_div (n d : Nat) : Nat := (n + d - 1) / d

/-- The spec's reference volume model (spec §4.6), written from the spec's
words, to be compared with `set_volume_packed`: if `balance < 0` the
right-channel input is boosted by `|balance|` saturating at the 0–100
domain; if `balance > 0` the left-channel input is reduced by `balance`
saturating at zero; each per-channel 0–100 value is mapped by
`hw = round((100 - in) / 100 * 0xFE)`; the two bytes are packed as
`(left << 8) | right`. -/
def volume_model_spec (vol : Nat) (balance : Int) : Nat :=
  let value_l := if 0 < balance then vol - balance.toNat else vol
  let value_r := if balance < 0 then min (vol + balance.natAbs) 100 else vol
  let hw_l := round_div ((100 - value_l) * 0xFE) 100
  let hw_r := round_div ((100 - value_r) * 0xFE) 100
  (hw_l <<< 8) ||| hw_r

/-- The amended per-channel map: a channel value `x ≤ 100` is mapped by
`hw = ceil((100 - x) / 100 * 0xFE)` (a ceiling, not round-to-nearest); a
boosted right-channel value `x > 100` makes the linear map negative and the
two's-complement `as u8` cast turns it into `510 - 0xFE * x / 100`. -/
def amended_channel (x : Nat) : Nat :=
  if x ≤ 100 then ceil_div ((100 - x) * 0xFE) 100 else 510 - 0xFE * x / 100

/-- The amended volume model: if `balance < 0` the right-channel input is
boosted by `|balance|` saturating at 255 (the `u8` domain, not at 100); if
`balance > 0` the left-channel input is reduced by `balance` saturating at
zero; each channel goes through `amended_channel`; the two bytes are packed
as `(left << 8) | right`. -/
def volume_model_amended (vol : Nat) (balance : Int) : Nat :=
  let value_l := if 0 < balance then vol - balance.toNat else vol
  let value_r := if balance < 0 then min (vol + balance.natAbs) 255 else vol
  (amended_channel value_l <<< 8) ||| amended_channel value_r

/-- The register-sweep loop of `test_comm` (lines 383–408): `k` is the step
index (the value written to `SCI_VOL` is `k * delta`), `rem` the remaining
iterations of `(0..0xFFFF).step_by(delta)`, `cnt` the accumulated bad-step
count, and `resp k` the two readbacks `(r1, r2)` of step `k` (the code
unwraps each `read_register` with `expect`, so the sweep logic only ever
sees successful readbacks).  Each executed step is one write followed by two
readbacks.  Returns the final count and the number of steps executed.  The
final `else` arm breaks out of the sweep on the first good step — the line
marked `// TODO: was not present in original library` (line 405). -/
def sweep_loop (delta : Nat) (resp : Nat → Nat × Nat) : Nat → Nat → Nat → Nat × Nat
  | _, 0, cnt => (cnt, 0)
  | k, rem + 1, cnt =>
    if 20 ≤ cnt then (cnt, 0)
    else if (resp k).1 ≠ (resp k).2 ∨ k * delta ≠ (resp k).1 ∨ k * delta ≠ (resp k).2 then
      ((sweep_loop delta resp (k + 1) rem (cnt + 1)).1,
       (sweep_loop delta resp (k + 1) rem (cnt + 1)).2 + 1)
    else (cnt, 1)

/-- Number of iterations of `(0..0xFFFF).step_by(delta)`:
`ceil(0xFFFF / delta)`. -/
def sweep_steps (delta : Nat) : Nat := ceil_div 0xFFFF delta

/-- `test_comm` (lines 349–410): if the DREQ line reads low the routine
returns `false` immediately; otherwise it sweeps `SCI_VOL` with step 300,
or step 3 when the header contains "Fast" (the raw C-string header is
abstracted to the flag `fast`, as the spec's §9 suggests), and returns
`cnt == 0`. -/
def test_comm (fast dreq_high : Bool) (resp : Nat → Nat × Nat) : Bool :=
  if ¬ dreq_high then false
  else
    let delta := if fast then 3 else 300
    (sweep_loop delta resp 0 (sweep_steps delta) 0).1 == 0

/-- The sweep as claim C3 states it, for comparison with `sweep_loop`:
identical write/readback/count bookkeeping, but the only early stop is the
20-bad-step abort — no break on a good step. -/
def claim_sweep_loop (delta : Nat) (resp : Nat → Nat × Nat) : Nat → Nat → Nat → Nat × Nat
  | _, 0, cnt => (cnt, 0)
  | k, rem + 1, cnt =>
    if 20 ≤ cnt then (cnt, 0)
    else
      ((claim_sweep_loop delta resp (k + 1) rem
          (if (resp k).1 ≠ (resp k).2 ∨ k * delta ≠ (resp k).1 ∨ k * delta ≠ (resp k).2
           then cnt + 1 else cnt)).1,
       (claim_sweep_loop delta resp (k + 1) rem
          (if (resp k).1 ≠ (resp k).2 ∨ k * delta ≠ (resp k).1 ∨ k * delta ≠ (resp k).2
           then cnt + 1 else cnt)).2 + 1)

/-- `test_comm` as claim C3 states it, built on `claim_sweep_loop`. -/
def test_comm_claim (fast dreq_high : Bool) (resp : Nat → Nat × Nat) : Bool :=
  if ¬ dreq_high then false
  else
    let delta := if fast then 3 else 300
    (claim_sweep_loop delta resp 0 (sweep_steps delta) 0).1 == 0

/-- A sweep step is good when both readbacks equal the written value (the
negation of the code's bad-step test `r1 != r2 || i != r1 || i != r2`). -/
def good_step (delta : Nat) (resp : Nat → Nat × Nat) (k : Nat) : Prop :=
  (resp k).1 = (resp k).2 ∧ k * delta = (resp k).1 ∧ k * delta = (resp k).2

/-- Events visible during `play_chunk2`'s loop: a DREQ ready-wait or a chunk
write of `len` bytes. -/
inductive StreamEvent
  | awaitReady
  | write (len : Nat)
deriving DecidableEq, Repr

/-- The loop of `play_chunk2` (lines 486–499): while bytes remain, compute
`chunk_length = if remaining > chunk_size then chunk_size else remaining`,
wait for DREQ (`await_data_request`), write that many bytes
(`write_bytes(&data[offset..offset + chunk_length])`) and advance the
cursor.  Recursion is by fuel; `fuel = remaining` is enough whenever
`chunk_size > 0`, while for `chunk_size = 0` and a nonempty buffer the
source itself never terminates (`remaining` never decreases), which the
fuel cuts off. -/
def chunk_loop (chunk_size : Nat) : Nat → Nat → List StreamEvent
  | 0, _ => []
  | _ + 1, 0 => []
  | fuel + 1, remaining + 1 =>
    StreamEvent.awaitReady ::
      StreamEvent.write (if chunk_size < remaining + 1 then chunk_size else remaining + 1) ::
        chunk_loop chunk_size fuel
          (remaining + 1 - if chunk_size < remaining + 1 then chunk_size else remaining + 1)

/-- The bus events of `play_chunk2 data chunk_size` between its
`data_mode_on` and `data_mode_off` calls, for a buffer of length `len`. -/
def play_chunk2_events (len chunk_size : Nat) : List StreamEvent :=
  chunk_loop chunk_size len len

/-- The chunk lengths `play_chunk2` writes for a buffer of `r` bytes:
`r / chunk_size` full chunks followed by the nonzero remainder, if any. -/
def chunk_lens (chunk_size r : Nat) : List Nat :=
  List.replicate (r / chunk_size) chunk_size ++
    (if r % chunk_size = 0 then [] else [r % chunk_size])

/-- The poll loop of `await_data_request` (lines 142–148): `ready j` is the
DREQ level read at the `j`-th poll; the code sleeps 1 ms after each
not-ready poll.  Returns the index of the first ready poll among
`k, k + 1, …` within `fuel` further polls, if any. -/
def await_loop (ready : Nat → Bool) : Nat → Nat → Option Nat
  | _, 0 => none
  | k, fuel + 1 => if ready k then some k else await_loop ready (k + 1) fuel

/-- `await_data_request` (lines 131–150): the loop `for _i in 0..=2000`
performs up to 2001 polls; the call returns `Ok(())` at the first ready poll
and `Err(DataRequestTimeout)` if none reads ready.  Paired with the number
of polls the call performs. -/
def await_data_request (ready : Nat → Bool) : Except DSPError Unit × Nat :=
  match await_loop ready 0 2001 with
  | some k => (Except.ok (), k + 1)
  | none => (Except.error DSPError.DataRequestTimeout, 2001)

/-- Pin-level events: drives of the chip-select lines (`set_cs_pin` for XCS,
`set_dcs_pin` for XDCS; `true` = high = released, `false` = low = asserted),
SPI byte traffic, and DREQ ready-waits. -/
inductive PinEvent
  | xcs (high : Bool)
  | xdcs (high : Bool)
  | spiWrite (len : Nat)
  | awaitDreq
deriving DecidableEq, Repr

/-- `control_mode_on` (lines 152–155): XDCS high, then XCS low. -/
def control_mode_on_pins : List PinEvent := [PinEvent.xdcs true, PinEvent.xcs false]

/-- `control_mode_off` (lines 157–159): XCS high. -/
def control_mode_off_pins : List PinEvent := [PinEvent.xcs true]

/-- `data_mode_on` (lines 161–164): XCS high, then XDCS low. -/
def data_mode_on_pins : List PinEvent := [PinEvent.xcs true, PinEvent.xdcs false]

/-- `data_mode_off` (lines 166–168): XDCS high. -/
def data_mode_off_pins : List PinEvent := [PinEvent.xdcs true]

/-- `write_bytes` (lines 334–347) on its success path: it brackets the SPI
write between `control_mode_on` and `control_mode_off` — command mode, not
data mode — and waits for DREQ before deselecting. -/
def write_bytes_pins (len : Nat) : List PinEvent :=
  control_mode_on_pins ++ [PinEvent.spiWrite len, PinEvent.awaitDreq] ++ control_mode_off_pins

/-- The pin trace of `play_chunk2`'s loop (success path): per chunk, an
`await_data_request` followed by a `write_bytes` of the chunk (same fuel
scheme as `chunk_loop`). -/
def chunk_loop_pins (chunk_size : Nat) : Nat → Nat → List PinEvent
  | 0, _ => []
  | _ + 1, 0 => []
  | fuel + 1, remaining + 1 =>
    (PinEvent.awaitDreq ::
        write_bytes_pins (if chunk_size < remaining + 1 then chunk_size else remaining + 1)) ++
      chunk_loop_pins chunk_size fuel
        (remaining + 1 - if chunk_size < remaining + 1 then chunk_size else remaining + 1)

/-- The full pin trace of `play_chunk2` (lines 481–502) on its success path
for a buffer of length `len`: `data_mode_on`, the chunk loop, then
`data_mode_off`. -/
def play_chunk2_pins (len chunk_size : Nat) : List PinEvent :=
  data_mode_on_pins ++ chunk_loop_pins chunk_size len len ++ data_mode_off_pins

/-- Levels of (XCS, XDCS) after one pin event. -/
def step_pins (s : Bool × Bool) : PinEvent → Bool × Bool
  | PinEvent.xcs b => (b, s.2)
  | PinEvent.xdcs b => (s.1, b)
  | _ => s

/-- Levels of (XCS, XDCS) in effect when the `i`-th event of `es` happens,
starting from levels `s` (both high after `begin`). -/
def pins_at (s : Bool × Bool) (es : List PinEvent) (i : Nat) : Bool × Bool :=
  (es.take i).foldl step_pins s

/-- Levels of (XCS, XDCS) after a whole event trace. -/
def final_pins (s : Bool × Bool) (es : List PinEvent) : Bool × Bool :=
  es.foldl step_pins s

/-- `read_register` (lines 293–306): `control_mode_on`, the SPI transaction,
`await_data_request`, `control_mode_off`, each fallible step followed by
`?`.  `spi_ok` says whether the SPI transaction succeeds, `dreq_ready`
whether DREQ asserts within the poll bound, `value` the register value a
successful read returns.  Only select-line and wait traffic is recorded,
which is what the deselect contract is about. -/
def read_register (spi_ok dreq_ready : Bool) (value : Nat) :
    Except DSPError Nat × List PinEvent :=
  if ¬ spi_ok then (Except.error DSPError.Spi, control_mode_on_pins)
  else if ¬ dreq_ready then
    (Except.error DSPError.DataRequestTimeout, control_mode_on_pins ++ [PinEvent.awaitDreq])
  else
    (Except.ok value, control_mode_on_pins ++ [PinEvent.awaitDreq] ++ control_mode_off_pins)

/-- `write_register` (lines 308–332): the same bracket as `read_register`
around a 4-byte write on the bus of the selected speed. -/
def write_register (spi_ok dreq_ready : Bool) : Except DSPError Unit × List PinEvent :=
  if ¬ spi_ok then (Except.error DSPError.Spi, control_mode_on_pins)
  else if ¬ dreq_ready then
    (Except.error DSPError.DataRequestTimeout, control_mode_on_pins ++ [PinEvent.awaitDreq])
  else
    (Except.ok (), control_mode_on_pins ++ [PinEvent.awaitDreq] ++ control_mode_off_pins)

/-- Outcome of a driver call as observed by the process: a returned value, a
returned error, or process termination by panic (Rust `expect` on an
`Err`). -/
inductive CallOutcome (α : Type)
  | ok (a : α)
  | err (e : DSPError)
  | panic
deriving DecidableEq, Repr

/-- `is_chip_connected` (lines 626–631): the `SCI_STATUS` read is unwrapped
with `expect`, so any SPI/pin/timeout error terminates the process; on a
successful read the call returns `!(status == 0 || status == 0xFFFF)`. -/
def is_chip_connected (read_result : Except DSPError Nat) : CallOutcome Bool :=
  match read_result with
  | Except.error _ => CallOutcome.panic
  | Except.ok status => CallOutcome.ok (!(status == 0 || status == 0xFFFF))

/-- `get_chip_version` (lines 638–643): the same `expect` pattern; on a
successful read the call returns `(status & 0x00F0) >> 4`. -/
def get_chip_version (read_result : Except DSPError Nat) : CallOutcome Nat :=
  match read_result with
  | Except.error _ => CallOutcome.panic
  | Except.ok status => CallOutcome.ok ((status &&& 0x00F0) >>> 4)

/-- One readback inside the `test_comm` sweep (lines 388–393): each
`read_register` result is unwrapped with `expect`. -/
def test_comm_readback (r : Except DSPError Nat) : CallOutcome Nat :=
  match r with
  | Except.error _ => CallOutcome.panic
  | Except.ok v => CallOutcome.ok v

theorem i64_as_u8_lt (x : Int) : i64_as_u8 x < 256 := by
  unfold i64_as_u8
  have h1 : 0 ≤ Int.emod x 256 := Int.emod_nonneg x (by decide)
  have h2 : Int.emod x 256 < 256 := Int.emod_lt_of_pos x (by decide)
  omega

theorem channel_byte_lt (x : Nat) : channel_byte x < 256 := i64_as_u8_lt _

/-- Packing two bytes with `(l << 8) | r` is `2 ^ 8 * l + r`. -/
theorem pack_eq (l r : Nat) (hr : r < 256) : (l <<< 8) ||| r = 2 ^ 8 * l + r := by
  rw [Nat.shiftLeft_eq, Nat.mul_comm, ← Nat.mul_add_lt_is_or hr]

/-- High byte of a pack. -/
theorem pack_hi (l r : Nat) (hr : r < 256) : ((l <<< 8) ||| r) / 2 ^ 8 = l := by
  rw [pack_eq l r hr]; omega

/-- Low byte of a pack. -/
theorem pack_lo (l r : Nat) (hr : r < 256) : ((l <<< 8) ||| r) % 2 ^ 8 = r := by
  rw [pack_eq l r hr]; omega

/-- On inputs up to 200 (the largest boosted channel value reachable from
volume ≤ 100 and |balance| ≤ 100), the code's channel byte agrees with the
amended model's per-channel map. -/
theorem channel_byte_eq_amended : ∀ x < 201, channel_byte x = amended_channel x := by
  decide

/-- The code's channel byte never exceeds 0xFE on inputs up to 200. -/
theorem channel_byte_le : ∀ x < 201, channel_byte x ≤ 0xFE := by
  decide

/-- Bounds on the adjusted channel inputs: both stay within 0–200 when the
volume is in 0–100 and the balance in −100–100. -/
theorem balance_adjust_le (vol : Nat) (balance : Int) (hv : vol ≤ 100)
    (hb : -100 ≤ balance ∧ balance ≤ 100) :
    (balance_adjust vol balance).1 ≤ 200 ∧ (balance_adjust vol balance).2 ≤ 200 := by
  unfold balance_adjust saturating_add_u8 saturating_sub_u8 unsigned_abs i8_as_u8
  split
  · constructor <;> simp <;> omega
  · split
    · constructor <;> simp <;> omega
    · constructor <;> simp <;> omega

/-- Under the claims' domain (volume 0–100, balance −100–100) the channel
inputs computed by `set_volume` coincide with the amended model's. -/
theorem balance_adjust_eq (vol : Nat) (balance : Int) (hv : vol ≤ 100)
    (hb : -100 ≤ balance ∧ balance ≤ 100) :
    balance_adjust vol balance =
      (if 0 < balance then vol - balance.toNat else vol,
       if balance < 0 then min (vol + balance.natAbs) 255 else vol) := by
  unfold balance_adjust saturating_add_u8 saturating_sub_u8 unsigned_abs i8_as_u8
  rcases lt_trichotomy balance 0 with h | h | h
  · rw [if_pos h, if_neg (by omega), if_pos h, Prod.mk.injEq]
    constructor <;> omega
  · rw [if_neg (by omega), if_neg (by omega), if_neg (by omega), if_neg (by omega)]
  · rw [if_neg (by omega), if_pos h, if_pos h, if_neg (by omega), Prod.mk.injEq]
    constructor <;> omega

/-- C1 (as written): the claim that `set_volume` computes the packed register
value exactly as the spec's reference definition fails already at
`(vol, balance) = (1, 0)` (the code's map is a truncating affine map, not
round-to-nearest: byte 0xFC vs the spec's 0xFB) and at `(50, -100)` (the
code saturates the boosted right channel at 255, not at the 0–100 domain,
and the negative map result wraps through the `as u8` cast: right byte 0x81
vs the spec's 0x00). -/
theorem C1_counterexample :
    volume_model_spec 1 0 ≠ set_volume_packed 1 0 ∧
    volume_model_spec 50 (-100) ≠ set_volume_packed 50 (-100) := by
  decide

/-- C1 (amended): for every volume `v ∈ [0,100]` and stored balance
`b ∈ [-100,100]`, `set_volume(v)` computes the packed 16-bit register value
as follows: if `b < 0` the right-channel input is boosted by `|b|`
saturating at 255 (the `u8` domain); if `b > 0` the left-channel input is
reduced by `b` saturating at zero; each per-channel value is mapped by
`amended_channel` (ceiling of the inverted linear map onto 0x00–0xFE, with
two's-complement wrap for boosted values above 100); and the two bytes are
packed as `(left << 8) | right` and written to the volume register. -/
theorem C1_set_volume_amended (vol : Nat) (balance : Int) (hv : vol ≤ 100)
    (hb : -100 ≤ balance ∧ balance ≤ 100) :
    set_volume_packed vol balance = volume_model_amended vol balance := by
  have h1 : (if 0 < balance then vol - balance.toNat else vol) < 201 := by
    split <;> omega
  have h2 : (if balance < 0 then min (vol + balance.natAbs) 255 else vol) < 201 := by
    split <;> omega
  simp only [set_volume_packed, volume_model_amended, balance_adjust_eq vol balance hv hb]
  rw [channel_byte_eq_amended _ h1, channel_byte_eq_amended _ h2]

theorem C1_set_volume_amended_witness :
    (50 ≤ 100 ∧ (-100 ≤ (-100 : Int) ∧ (-100 : Int) ≤ 100)) ∧
      set_volume_packed 50 (-100) = volume_model_amended 50 (-100) :=
  ⟨⟨by decide, by decide, by decide⟩,
    C1_set_volume_amended 50 (-100) (by decide) ⟨by decide, by decide⟩⟩

/-- C2: for every volume `v ∈ [0,100]` and balance `b ∈ [-100,100]`, the
volume model is deterministic (same inputs give the same packed value) and
each of the two bytes of the packed register value lies in `[0x00, 0xFE]`. -/
theorem C2_volume_model_bytes (vol : Nat) (balance : Int) (hv : vol ≤ 100)
    (hb : -100 ≤ balance ∧ balance ≤ 100) :
    set_volume_packed vol balance = set_volume_packed vol balance ∧
    set_volume_packed vol balance / 2 ^ 8 ≤ 0xFE ∧
    set_volume_packed vol balance % 2 ^ 8 ≤ 0xFE := by
  have hle := balance_adjust_le vol balance hv hb
  refine ⟨rfl, ?_, ?_⟩
  · simp only [set_volume_packed]
    rw [pack_hi _ _ (channel_byte_lt _)]
    exact channel_byte_le _ (by omega)
  · simp only [set_volume_packed]
    rw [pack_lo _ _ (channel_byte_lt _)]
    exact channel_byte_le _ (by omega)

theorem C2_volume_model_bytes_witness :
    (50 ≤ 100 ∧ (-100 ≤ (100 : Int) ∧ (100 : Int) ≤ 100)) ∧
      set_volume_packed 50 100 / 2 ^ 8 ≤ 0xFE ∧
      set_volume_packed 50 100 % 2 ^ 8 ≤ 0xFE :=
  ⟨⟨by decide, by decide, by decide⟩,
    (C2_volume_model_bytes 50 100 (by decide) ⟨by decide, by decide⟩).2⟩

/-- C9: at the spec's four fixed test points, the volume model yields 0x00
for both channel bytes at `(v, b) = (100, 0)`, 0xFE for both at `(0, 0)`, a
left byte strictly greater than the right at `(50, 100)`, and a right byte
strictly greater than the left at `(50, -100)` (high byte = left channel,
low byte = right channel). -/
theorem C9_volume_model_test_points :
    set_volume_packed 100 0 / 2 ^ 8 = 0x00 ∧ set_volume_packed 100 0 % 2 ^ 8 = 0x00 ∧
    set_volume_packed 0 0 / 2 ^ 8 = 0xFE ∧ set_volume_packed 0 0 % 2 ^ 8 = 0xFE ∧
    set_volume_packed 50 100 % 2 ^ 8 < set_volume_packed 50 100 / 2 ^ 8 ∧
    set_volume_packed 50 (-100) / 2 ^ 8 < set_volume_packed 50 (-100) % 2 ^ 8 := by
  decide

/-- C10: `set_volume` is not atomic with respect to failure: the stored
volume is updated before the hardware register write is attempted, so after
`set_volume(v)` returns an error the call's result is that error and
`get_volume` returns `v` (not the previous volume). -/
theorem C10_set_volume_not_atomic (s : VolumeState) (vol : Nat) (e : DSPError) :
    (set_volume s vol (Except.error e)).2.2 = Except.error e ∧
    get_volume (set_volume s vol (Except.error e)).1 = vol :=
  ⟨rfl, rfl⟩

/-- The bad-step count of the sweep never exceeds 20. -/
theorem sweep_loop_cnt_le (delta : Nat) (resp : Nat → Nat × Nat) :
    ∀ rem k cnt, cnt ≤ 20 → (sweep_loop delta resp k rem cnt).1 ≤ 20 := by
  intro rem
  induction rem with
  | zero => intro k cnt h; exact h
  | succ rem ih =>
    intro k cnt h
    unfold sweep_loop
    split
    · exact h
    · split
      · exact ih (k + 1) (cnt + 1) (by omega)
      · exact h

/-- The bad-step count of the sweep only grows. -/
theorem sweep_loop_cnt_mono (delta : Nat) (resp : Nat → Nat × Nat) :
    ∀ rem k cnt, cnt ≤ (sweep_loop delta resp k rem cnt).1 := by
  intro rem
  induction rem with
  | zero => intro k cnt; exact Nat.le_refl cnt
  | succ rem ih =>
    intro k cnt
    unfold sweep_loop
    split
    · exact Nat.le_refl cnt
    · split
      · exact Nat.le_trans (Nat.le_succ cnt) (ih (k + 1) (cnt + 1))
      · exact Nat.le_refl cnt

/-- The sweep never executes more steps than the iteration range has. -/
theorem sweep_loop_steps_le (delta : Nat) (resp : Nat → Nat × Nat) :
    ∀ rem k cnt, (sweep_loop delta resp k rem cnt).2 ≤ rem := by
  intro rem
  induction rem with
  | zero => intro k cnt; exact Nat.le_refl 0
  | succ rem ih =>
    intro k cnt
    unfold sweep_loop
    split
    · exact Nat.zero_le _
    · split
      · exact Nat.succ_le_succ (ih (k + 1) (cnt + 1))
      · exact Nat.succ_le_succ (Nat.zero_le _)

/-- If the sweep stops before exhausting the range, either 20 bad steps had
accumulated or the last executed step was good. -/
theorem sweep_loop_stop (delta : Nat) (resp : Nat → Nat × Nat) :
    ∀ rem k cnt, cnt ≤ 20 → (sweep_loop delta resp k rem cnt).2 < rem →
      (sweep_loop delta resp k rem cnt).1 = 20 ∨
        (0 < (sweep_loop delta resp k rem cnt).2 ∧
          good_step delta resp (k + (sweep_loop delta resp k rem cnt).2 - 1)) := by
  intro rem
  induction rem with
  | zero => intro k cnt _ h; exact absurd h (by omega)
  | succ rem ih =>
    intro k cnt hcnt
    unfold sweep_loop
    by_cases h20 : 20 ≤ cnt
    · rw [if_pos h20]
      intro _
      left
      omega
    · rw [if_neg h20]
      by_cases hbad : (resp k).1 ≠ (resp k).2 ∨ k * delta ≠ (resp k).1 ∨ k * delta ≠ (resp k).2
      · rw [if_pos hbad]
        dsimp only
        intro hlt
        rcases ih (k + 1) (cnt + 1) (by omega) (by omega) with hl | ⟨hp, hg⟩
        · left; exact hl
        · right
          refine ⟨by omega, ?_⟩
          have heq : k + ((sweep_loop delta resp (k + 1) rem (cnt + 1)).2 + 1) - 1
              = k + 1 + (sweep_loop delta resp (k + 1) rem (cnt + 1)).2 - 1 := by omega
          rw [heq]
          exact hg
      · rw [if_neg hbad]
        dsimp only
        intro _
        right
        refine ⟨Nat.one_pos, ?_⟩
        simp only [not_or, not_not, ne_eq] at hbad
        have heq : k + 1 - 1 = k := by omega
        rw [heq]
        exact ⟨hbad.1, hbad.2.1, hbad.2.2⟩

/-- A sweep over a nonempty range starting with zero bad steps returns a
zero count exactly when its first step is good. -/
theorem sweep_loop_first (delta : Nat) (resp : Nat → Nat × Nat) :
    ∀ rem k, 0 < rem → ((sweep_loop delta resp k rem 0).1 = 0 ↔ good_step delta resp k) := by
  intro rem k h
  match rem, h with
  | rem + 1, _ =>
    unfold sweep_loop
    rw [if_neg (by omega)]
    by_cases hbad : (resp k).1 ≠ (resp k).2 ∨ k * delta ≠ (resp k).1 ∨ k * delta ≠ (resp k).2
    · rw [if_pos hbad]
      dsimp only
      have hmono := sweep_loop_cnt_mono delta resp rem (k + 1) (0 + 1)
      constructor
      · intro h0
        omega
      · intro hg
        simp only [good_step] at hg
        exact absurd hbad (by tauto)
    · rw [if_neg hbad]
      dsimp only
      simp only [not_or, not_not, ne_eq] at hbad
      simp [good_step, hbad]

/-- C3 (as written): the claim that the sweep stops early *only* once 20 bad
steps have accumulated fails on the code: on a bus that echoes every write
correctly except that all readbacks are 0 (here: correct at step 0, wrong
afterwards), the claim's sweep accumulates 20 bad steps and reports failure,
while the code's sweep breaks at the first good step (step 0, the line
marked `// TODO: was not present in original library`) and reports success. -/
theorem C3_counterexample :
    test_comm false true (fun _ => (0, 0)) = true ∧
    test_comm_claim false true (fun _ => (0, 0)) = false := by
  constructor <;> decide

/-- C3 (amended): the self-test returns `false` immediately when DREQ reads
low; otherwise it sweeps the scratch (volume) register with the
caller-selected step (coarse 300 for the slow probe, fine 3 for the fast
probe), each step one write and two readbacks, a step bad if either
readback differs from the written value or the readbacks differ from each
other; it never counts more than 20 bad steps; it stops the sweep early
either once 20 bad steps have accumulated or as soon as one good step is
observed; and it returns pass exactly when zero bad steps were observed —
equivalently, exactly when the very first step is good. -/
theorem C3_test_comm_amended (fast : Bool) (resp : Nat → Nat × Nat) :
    (sweep_loop (if fast then 3 else 300) resp 0 (sweep_steps (if fast then 3 else 300)) 0).1
        ≤ 20 ∧
    (test_comm fast true resp = true ↔
      (sweep_loop (if fast then 3 else 300) resp 0
        (sweep_steps (if fast then 3 else 300)) 0).1 = 0) ∧
    (test_comm fast true resp = true ↔ good_step (if fast then 3 else 300) resp 0) ∧
    (sweep_loop (if fast then 3 else 300) resp 0 (sweep_steps (if fast then 3 else 300)) 0).2
        ≤ sweep_steps (if fast then 3 else 300) ∧
    ((sweep_loop (if fast then 3 else 300) resp 0 (sweep_steps (if fast then 3 else 300)) 0).2
          = sweep_steps (if fast then 3 else 300) ∨
      (sweep_loop (if fast then 3 else 300) resp 0
          (sweep_steps (if fast then 3 else 300)) 0).1 = 20 ∨
      (0 < (sweep_loop (if fast then 3 else 300) resp 0
          (sweep_steps (if fast then 3 else 300)) 0).2 ∧
        good_step (if fast then 3 else 300) resp
          ((sweep_loop (if fast then 3 else 300) resp 0
            (sweep_steps (if fast then 3 else 300)) 0).2 - 1))) ∧
    test_comm fast false resp = false := by
  have hpos : 0 < sweep_steps (if fast then 3 else 300) := by
    cases fast <;> decide
  have hresult : test_comm fast true resp
      = ((sweep_loop (if fast then 3 else 300) resp 0
          (sweep_steps (if fast then 3 else 300)) 0).1 == 0) := by
    simp [test_comm]
  refine ⟨sweep_loop_cnt_le _ _ _ _ _ (by omega), ?_, ?_, sweep_loop_steps_le _ _ _ _ _, ?_, ?_⟩
  · rw [hresult]
    exact beq_iff_eq
  · rw [hresult]
    exact Iff.trans beq_iff_eq (sweep_loop_first _ resp _ 0 hpos)
  · rcases Nat.lt_or_ge (sweep_loop (if fast then 3 else 300) resp 0
        (sweep_steps (if fast then 3 else 300)) 0).2 (sweep_steps (if fast then 3 else 300))
      with hlt | hge
    · have := sweep_loop_stop (if fast then 3 else 300) resp
        (sweep_steps (if fast then 3 else 300)) 0 0 (by omega) hlt
      right
      simpa using this
    · left
      exact Nat.le_antisymm (sweep_loop_steps_le _ _ _ _ _) hge
  · simp [test_comm]

/-- Splitting off one full chunk. -/
theorem chunk_lens_step (cs r : Nat) (hcs : 0 < cs) (h : cs ≤ r) :
    chunk_lens cs r = cs :: chunk_lens cs (r - cs) := by
  unfold chunk_lens
  rw [Nat.div_eq_sub_div hcs h, Nat.mod_eq_sub_mod h, List.replicate_succ]
  simp

/-- The final short chunk. -/
theorem chunk_lens_last (cs r : Nat) (h1 : 0 < r) (h2 : r ≤ cs) : chunk_lens cs r = [r] := by
  unfold chunk_lens
  rcases Nat.lt_or_eq_of_le h2 with h | h
  · rw [Nat.div_eq_of_lt h, Nat.mod_eq_of_lt h, if_neg (by omega)]
    simp
  · subst h
    rw [Nat.div_self h1, Nat.mod_self]
    simp

/-- The loop of `play_chunk2` performs, in order, a ready-wait followed by a
chunk write for exactly the chunk lengths of `chunk_lens`. -/
theorem chunk_loop_eq (chunk_size : Nat) (hcs : 0 < chunk_size) :
    ∀ fuel r, r ≤ fuel →
      chunk_loop chunk_size fuel r =
        (chunk_lens chunk_size r).flatMap
          (fun c => [StreamEvent.awaitReady, StreamEvent.write c]) := by
  intro fuel
  induction fuel with
  | zero =>
    intro r hr
    have h0 : r = 0 := by omega
    subst h0
    simp [chunk_loop, chunk_lens]
  | succ fuel ih =>
    intro r hr
    match r with
    | 0 => simp [chunk_loop, chunk_lens]
    | rr + 1 =>
      unfold chunk_loop
      by_cases hlt : chunk_size < rr + 1
      · rw [if_pos hlt, ih (rr + 1 - chunk_size) (by omega),
          chunk_lens_step chunk_size (rr + 1) hcs (by omega)]
        simp
      · rw [if_neg hlt, Nat.sub_self, ih 0 (Nat.zero_le _),
          chunk_lens_last chunk_size (rr + 1) (by omega) (by omega)]
        simp [chunk_lens]

/-- `ceil_div` in terms of quotient and remainder. -/
theorem ceil_div_char (L cs : Nat) (hcs : 0 < cs) :
    ceil_div L cs = L / cs + (if L % cs = 0 then 0 else 1) := by
  obtain ⟨q, m, hL, hm⟩ : ∃ q m, L = cs * q + m ∧ m < cs :=
    ⟨L / cs, L % cs, (Nat.div_add_mod L cs).symm, Nat.mod_lt L hcs⟩
  have hdiv : L / cs = q := by
    rw [hL, Nat.mul_add_div hcs, Nat.div_eq_of_lt hm, Nat.add_zero]
  have hmod : L % cs = m := by
    rw [hL, Nat.mul_add_mod, Nat.mod_eq_of_lt hm]
  unfold ceil_div
  rw [hdiv, hmod]
  by_cases h : m = 0
  · subst h
    rw [if_pos rfl]
    have h2 : L + cs - 1 = cs * q + (cs - 1) := by omega
    rw [h2, Nat.mul_add_div hcs, Nat.div_eq_of_lt (by omega), Nat.add_zero]
  · rw [if_neg h]
    have h2 : L + cs - 1 = cs * (q + 1) + (m - 1) := by rw [Nat.mul_succ]; omega
    rw [h2, Nat.mul_add_div hcs, Nat.div_eq_of_lt (by omega), Nat.add_zero]

/-- The number of chunks is `ceil(L / chunk_size)`. -/
theorem chunk_lens_length (cs L : Nat) (hcs : 0 < cs) :
    (chunk_lens cs L).length = ceil_div L cs := by
  rw [ceil_div_char L cs hcs]
  unfold chunk_lens
  by_cases h : L % cs = 0
  · rw [if_pos h, if_pos h]
    simp
  · rw [if_neg h, if_neg h]
    simp

/-- The chunk lengths sum to the buffer length. -/
theorem chunk_lens_sum (cs L : Nat) (_hcs : 0 < cs) : (chunk_lens cs L).sum = L := by
  unfold chunk_lens
  have hdm := Nat.div_add_mod L cs
  have hcomm : L / cs * cs = cs * (L / cs) := Nat.mul_comm _ _
  by_cases h : L % cs = 0
  · rw [if_pos h]
    simp only [List.append_nil, List.sum_replicate, smul_eq_mul]
    omega
  · rw [if_neg h]
    simp only [List.sum_append, List.sum_replicate, smul_eq_mul, List.sum_cons,
      List.sum_nil, Nat.add_zero]
    omega

/-- Every chunk except possibly the last is full-sized. -/
theorem chunk_lens_dropLast (cs L : Nat) : ∀ c ∈ (chunk_lens cs L).dropLast, c = cs := by
  unfold chunk_lens
  by_cases h : L % cs = 0
  · rw [if_pos h, List.append_nil]
    intro c hc
    exact List.eq_of_mem_replicate ((List.dropLast_sublist _).subset hc)
  · rw [if_neg h, List.dropLast_concat]
    intro c hc
    exact List.eq_of_mem_replicate hc

/-- When the division is not exact, the final chunk is the remainder. -/
theorem chunk_lens_getLast (cs L : Nat) (h : L % cs ≠ 0) :
    (chunk_lens cs L).getLast? = some (L % cs) := by
  unfold chunk_lens
  rw [if_neg h, List.getLast?_concat]

/-- When the division is exact, every chunk is full-sized. -/
theorem chunk_lens_exact (cs L : Nat) (h : L % cs = 0) : ∀ c ∈ chunk_lens cs L, c = cs := by
  unfold chunk_lens
  rw [if_pos h, List.append_nil]
  intro c hc
  exact List.eq_of_mem_replicate hc

/-- C4: for every input buffer length `L` and chunk size `C > 0`, the
streaming writer `play_chunk2` issues exactly `ceil(L / C)` chunk writes,
each preceded by a ready-wait, whose lengths sum to `L`, every chunk of
length `C` except a final chunk of length `L % C` when the division is not
exact. -/
theorem C4_play_chunk2_chunking (L C : Nat) (hC : 0 < C) :
    play_chunk2_events L C =
      (chunk_lens C L).flatMap (fun c => [StreamEvent.awaitReady, StreamEvent.write c]) ∧
    (chunk_lens C L).length = ceil_div L C ∧
    (chunk_lens C L).sum = L ∧
    (∀ c ∈ (chunk_lens C L).dropLast, c = C) ∧
    (L % C ≠ 0 → (chunk_lens C L).getLast? = some (L % C)) ∧
    (L % C = 0 → ∀ c ∈ chunk_lens C L, c = C) :=
  ⟨chunk_loop_eq C hC L L (Nat.le_refl L), chunk_lens_length C L hC, chunk_lens_sum C L hC,
    chunk_lens_dropLast C L, chunk_lens_getLast C L, chunk_lens_exact C L⟩

theorem C4_play_chunk2_chunking_witness :
    0 < 32 ∧ chunk_lens 32 100 = [32, 32, 32, 4] ∧
      (chunk_lens 32 100).length = ceil_div 100 32 ∧ (chunk_lens 32 100).sum = 100 :=
  ⟨by decide, by decide, (C4_play_chunk2_chunking 100 32 (by decide)).2.1,
    (C4_play_chunk2_chunking 100 32 (by decide)).2.2.1⟩

/-- A successful poll loop: the returned index is in range, reads ready, and
all earlier polls read not-ready. -/
theorem await_loop_some (ready : Nat → Bool) :
    ∀ fuel k j, await_loop ready k fuel = some j →
      k ≤ j ∧ j < k + fuel ∧ ready j = true ∧
        ∀ i, k ≤ i → i < j → ready i = false := by
  intro fuel
  induction fuel with
  | zero => intro k j h; exact absurd h (by simp [await_loop])
  | succ fuel ih =>
    intro k j h
    unfold await_loop at h
    by_cases hr : ready k
    · rw [if_pos hr] at h
      obtain rfl : k = j := by injection h
      exact ⟨Nat.le_refl k, by omega, hr, fun i h1 h2 => absurd h2 (by omega)⟩
    · rw [if_neg hr] at h
      obtain ⟨h1, h2, h3, h4⟩ := ih (k + 1) j h
      refine ⟨by omega, by omega, h3, fun i hi1 hi2 => ?_⟩
      rcases Nat.eq_or_lt_of_le hi1 with heq | hlt
      · subst heq
        exact Bool.eq_false_iff.mpr hr
      · exact h4 i hlt hi2

/-- An exhausted poll loop: every poll in range read not-ready. -/
theorem await_loop_none (ready : Nat → Bool) :
    ∀ fuel k, await_loop ready k fuel = none ↔
      ∀ i, k ≤ i → i < k + fuel → ready i = false := by
  intro fuel
  induction fuel with
  | zero =>
    intro k
    simp [await_loop]
    intro i h1 h2
    omega
  | succ fuel ih =>
    intro k
    unfold await_loop
    by_cases hr : ready k
    · rw [if_pos hr]
      constructor
      · intro h; exact absurd h (by simp)
      · intro h
        have := h k (Nat.le_refl k) (by omega)
        rw [hr] at this
        exact absurd this (by simp)
    · rw [if_neg hr]
      rw [ih (k + 1)]
      constructor
      · intro h i h1 h2
        rcases Nat.eq_or_lt_of_le h1 with heq | hlt
        · subst heq; exact Bool.eq_false_iff.mpr hr
        · exact h i hlt (by omega)
      · intro h i h1 h2
        exact h i (by omega) (by omega)

/-- C5 (as written): the claim that `await_ready` polls at most 2000 times
fails on the code: the loop `for _i in 0..=2000` performs up to 2001 polls.
On the trace where DREQ first reads high at poll index 2000, the call
succeeds after 2001 polls — under a 2000-poll bound the line would never
have been seen ready and the call would have timed out. -/
theorem C5_counterexample :
    (await_data_request (fun i => i == 2000)).1 = Except.ok () ∧
    (await_data_request (fun i => i == 2000)).2 = 2001 ∧ ¬(2001 ≤ 2000) := by
  refine ⟨rfl, rfl, by decide⟩

/-- C5 (amended): for every trace of the data-ready line,
`await_data_request` polls at most 2001 times (loop indices 0–2000
inclusive) at a fixed 1 ms interval: it returns success as soon as a poll
reads the line ready, performing no further polls (the poll count is one
more than the index of the first ready poll, every earlier poll reading
not-ready), and it returns `Timeout` exactly when the line never reads
ready within the 2001-poll bound. -/
theorem C5_await_ready_amended (ready : Nat → Bool) :
    (await_data_request ready).2 ≤ 2001 ∧
    ((await_data_request ready).1 = Except.ok () ↔ ∃ i, i ≤ 2000 ∧ ready i = true) ∧
    (∀ k, await_loop ready 0 2001 = some k →
      ready k = true ∧ (∀ j, j < k → ready j = false) ∧
        (await_data_request ready).2 = k + 1) ∧
    ((await_data_request ready).1 = Except.error DSPError.DataRequestTimeout ↔
      ∀ i, i ≤ 2000 → ready i = false) := by
  rcases hcase : await_loop ready 0 2001 with _ | k
  · have hall := (await_loop_none ready 2001 0).mp hcase
    simp only [await_data_request, hcase]
    refine ⟨by omega, ?_, ?_, ?_⟩
    · constructor
      · intro h; exact absurd h (by simp)
      · rintro ⟨i, h1, h2⟩
        have := hall i (Nat.zero_le i) (by omega)
        rw [this] at h2
        exact absurd h2 (by simp)
    · intro k hk
      exact Option.noConfusion hk
    · constructor
      · intro _ i hi
        exact hall i (Nat.zero_le i) (by omega)
      · intro _
        trivial
  · obtain ⟨hk0, hklt, hkr, hkpre⟩ := await_loop_some ready 2001 0 k hcase
    simp only [await_data_request, hcase]
    refine ⟨by omega, ?_, ?_, ?_⟩
    · constructor
      · intro _
        exact ⟨k, by omega, hkr⟩
      · intro _
        trivial
    · intro k' hk'
      obtain rfl : k = k' := by injection hk'
      exact ⟨hkr, fun j hj => hkpre j (Nat.zero_le j) hj, rfl⟩
    · constructor
      · intro h
        exact absurd h (by simp)
      · intro hall'
        have := hall' k (by omega)
        rw [hkr] at this
        exact absurd this (by simp)

theorem C5_await_ready_amended_witness :
    (await_data_request (fun _ => false)).2 ≤ 2001 ∧
      (await_data_request (fun _ => false)).1 = Except.error DSPError.DataRequestTimeout :=
  ⟨(C5_await_ready_amended (fun _ => false)).1,
    ((C5_await_ready_amended (fun _ => false)).2.2.2).mpr (fun _ _ => rfl)⟩

/-- C6 (code bug): the pin trace of `play_chunk2` for a one-byte buffer with
chunk size 32.  Data mode is entered at the start and exited at the end, but
the chunk's SPI write happens with XCS asserted and XDCS released — command
mode, not data mode — because `write_bytes` brackets every write in
`control_mode_on`/`control_mode_off`.  At the `spiWrite` event (index 5) the
(XCS, XDCS) levels are (low, high) = `(false, true)`, not the
claimed data-mode levels `(true, false)`. -/
theorem C6_stream_write_mode_code_bug :
    play_chunk2_pins 1 32 =
      [PinEvent.xcs true, PinEvent.xdcs false, PinEvent.awaitDreq, PinEvent.xdcs true,
        PinEvent.xcs false, PinEvent.spiWrite 1, PinEvent.awaitDreq, PinEvent.xcs true,
        PinEvent.xdcs true] ∧
    (play_chunk2_pins 1 32)[5]? = some (PinEvent.spiWrite 1) ∧
    pins_at (true, true) (play_chunk2_pins 1 32) 5 = (false, true) ∧
    pins_at (true, true) (play_chunk2_pins 1 32) 5 ≠ (true, false) := by
  refine ⟨rfl, rfl, rfl, ?_⟩
  intro h
  exact Bool.noConfusion (congrArg Prod.fst h)

/-- C7 (code bug): `read_register` and `write_register` release the command
select on the success path, but on the SPI-failure and DREQ-timeout paths
the `?` operator returns before `control_mode_off`, so the call returns with
XCS still asserted (low). -/
theorem C7_register_deselect_code_bug :
    (read_register true true 0).1 = Except.ok 0 ∧
    final_pins (true, true) (read_register true true 0).2 = (true, true) ∧
    (read_register false true 0).1 = Except.error DSPError.Spi ∧
    final_pins (true, true) (read_register false true 0).2 = (false, true) ∧
    (read_register true false 0).1 = Except.error DSPError.DataRequestTimeout ∧
    final_pins (true, true) (read_register true false 0).2 = (false, true) ∧
    (write_register false true).1 = Except.error DSPError.Spi ∧
    final_pins (true, true) (write_register false true).2 = (false, true) ∧
    (write_register true false).1 = Except.error DSPError.DataRequestTimeout ∧
    final_pins (true, true) (write_register true false).2 = (false, true) :=
  ⟨rfl, rfl, rfl, rfl, rfl, rfl, rfl, rfl, rfl, rfl⟩

/-- C8 (as written): the claim that no fault is escalated to process
termination fails on the code: `is_chip_connected` unwraps its status-read
with `expect`, so an SPI transaction failure panics the process instead of
being returned or logged. -/
theorem C8_counterexample :
    is_chip_connected (Except.error DSPError.Spi) = CallOutcome.panic := rfl

/-- C8 (amended): register/streaming operations (`set_volume`,
`read_register`, `write_register`, `await_data_request`) return every fault
to their caller, but `is_chip_connected`, `get_chip_version` and the
`test_comm` readbacks unwrap register reads with `expect` and escalate any
SPI/pin/timeout fault to a panic (process termination). -/
theorem C8_fault_propagation_amended (e : DSPError) :
    is_chip_connected (Except.error e) = CallOutcome.panic ∧
    get_chip_version (Except.error e) = CallOutcome.panic ∧
    test_comm_readback (Except.error e) = CallOutcome.panic ∧
    (∀ s vol, (set_volume s vol (Except.error e)).2.2 = Except.error e) ∧
    (read_register false true 0).1 = Except.error DSPError.Spi ∧
    (write_register false true).1 = Except.error DSPError.Spi ∧
    (await_data_request (fun _ => false)).1 = Except.error DSPError.DataRequestTimeout :=
  ⟨rfl, rfl, rfl, fun _ _ => rfl, rfl, rfl, rfl⟩

theorem C8_fault_propagation_amended_witness :
    is_chip_connected (Except.error DSPError.Spi) = CallOutcome.panic ∧
      get_chip_version (Except.error DSPError.Spi) = CallOutcome.panic :=
  ⟨(C8_fault_propagation_amended DSPError.Spi).1,
    (C8_fault_propagation_amended DSPError.Spi).2.1⟩
